import Mathlib

/-!
# Verification of the Iroha trigger subsystem and notification-event filters

Shallow embedding of `core/src/smartcontracts/isi/triggers.rs` and
`data_model/src/events/notification.rs`.  Machine integers (`u32` repeat
counts) are `Nat` with explicit checked arithmetic against `2^32 - 1`.
The trigger registry and its mutation gateway (`modify_triggers`,
`add`, `remove`, `get`, `mod_repeats`) live outside the embedded sources
and are modelled from the specification of the world-state collaborator.
-/

namespace Iroha

/-- Trigger identifier: a unique, stable name. -/
abbrev TriggerId := String

/-- Account identifier, the acting authority of an instruction. -/
abbrev AccountId := String

/-- Repeat policy of a trigger action: unlimited, or exactly-N-remaining
(`N` is a `u32` in the source, embedded as `Nat`). -/
inductive Repeats where
  | Indefinitely : Repeats
  | Exactly (n : Nat) : Repeats
deriving DecidableEq, Repr

/-- A time schedule: a start instant and an optional recurring period.
`period = none` means the schedule fires exactly once at a fixed instant. -/
structure TimeSchedule where
  start : Nat
  period : Option Nat
deriving DecidableEq, Repr

/-- Execution time of a time-event filter. -/
inductive ExecutionTime where
  | PreCommit : ExecutionTime
  | Schedule (s : TimeSchedule) : ExecutionTime
deriving DecidableEq, Repr

/-- Event filter held by a trigger action.  Only the time variant matters
for the one-shot check; other variants are collapsed into type tags. -/
inductive EventFilter where
  | Time (t : ExecutionTime) : EventFilter
  | Data : EventFilter
  | ExecuteTrigger : EventFilter
deriving DecidableEq, Repr

/-- A trigger action: an event filter, an executable payload, a repeat
policy, an owning technical account, and key-value metadata. -/
structure Action where
  filter : EventFilter
  executable : String
  repeats : Repeats
  technical_account : AccountId
  metadata : List (String × String)
deriving DecidableEq, Repr

/-- A trigger: identity plus action. -/
structure Trigger where
  id : TriggerId
  action : Action
deriving DecidableEq, Repr

/-- Arithmetic error kind (`MathError` in the source). -/
inductive MathError where
  | Overflow : MathError
deriving DecidableEq, Repr

/-- Instruction-execution error taxonomy: arithmetic, not-found, duplicate. -/
inductive Error where
  | Math (e : MathError) : Error
  | Find (id : TriggerId) : Error
  | Repetition (id : TriggerId) : Error
deriving DecidableEq, Repr

/-- Trigger lifecycle event emitted by a successful trigger-mutating
instruction. -/
inductive TriggerEvent where
  | Created (id : TriggerId) : TriggerEvent
  | Deleted (id : TriggerId) : TriggerEvent
  | Extended (id : TriggerId) : TriggerEvent
  | Shortened (id : TriggerId) : TriggerEvent
deriving DecidableEq, Repr

/-- Largest value of a `u32`. -/
def UINT32_MAX : Nat := 4294967295

/-- `u32::checked_add`: `some` of the sum when it fits in 32 bits. -/
def u32_checked_add (n a : Nat) : Option Nat :=
  if n + a ≤ UINT32_MAX then some (n + a) else none

/-- `u32::checked_sub`: `some` of the difference when no underflow. -/
def u32_checked_sub (n a : Nat) : Option Nat :=
  if a ≤ n then some (n - a) else none

/-- Modelled from the spec: the trigger registry, an arena-style store
from id to action (the `TriggerSet` collaborator is not among the
embedded sources). -/
abbrev TriggerSet := List (TriggerId × Action)

/-- Look up the action registered under an id. -/
def TriggerSet.find : TriggerSet → TriggerId → Option Action
  | [], _ => none
  | (k, a) :: t, id => if k = id then some a else TriggerSet.find t id

/-- Modelled from the spec: registry read `get(id) -> Result<Action, NotFoundError>`. -/
def TriggerSet.get (s : TriggerSet) (id : TriggerId) : Except Error Action :=
  match TriggerSet.find s id with
  | none => Except.error (Error.Find id)
  | some a => Except.ok a

/-- Modelled from the spec: registry `add(trigger) -> Result<(), DuplicateError>`;
fails if the id already exists, otherwise inserts. -/
def TriggerSet.add (s : TriggerSet) (t : Trigger) : Except Error TriggerSet :=
  match TriggerSet.find s t.id with
  | some _ => Except.error (Error.Repetition t.id)
  | none => Except.ok ((t.id, t.action) :: s)

/-- Remove every entry stored under the given id. -/
def removeId : TriggerSet → TriggerId → TriggerSet
  | [], _ => []
  | (k, a) :: t, id =>
      if k = id then removeId t id else (k, a) :: removeId t id

/-- Modelled from the spec: registry `remove(id) -> Result<(), NotFoundError>`. -/
def TriggerSet.remove (s : TriggerSet) (id : TriggerId) : Except Error TriggerSet :=
  match TriggerSet.find s id with
  | none => Except.error (Error.Find id)
  | some _ => Except.ok (removeId s id)

/-- Overwrite the repeat policy of the entry stored under the given id. -/
def setRepeats : TriggerSet → TriggerId → Nat → TriggerSet
  | [], _, _ => []
  | (k, a) :: t, id, m =>
      if k = id then (k, { a with repeats := Repeats.Exactly m }) :: setRepeats t id m
      else (k, a) :: setRepeats t id m

/-- Modelled from the spec: registry `mod_repeats(id, fn(count) -> Result<count, Error>)`:
applies the count transformer to an exactly-N policy and commits the new
count; not-found and unlimited policies fail without change. -/
def TriggerSet.mod_repeats (s : TriggerSet) (id : TriggerId)
    (f : Nat → Except MathError Nat) : Except Error TriggerSet :=
  match TriggerSet.find s id with
  | none => Except.error (Error.Find id)
  | some a =>
    match a.repeats with
    | Repeats.Indefinitely => Except.error (Error.Math MathError.Overflow)
    | Repeats.Exactly n =>
      match f n with
      | Except.error e => Except.error (Error.Math e)
      | Except.ok m => Except.ok (setRepeats s id m)

/-- Modelled from the spec: the atomic read-modify-write gateway
`modify_triggers(closure)`: commits the closure result on success and
propagates the error leaving the registry untouched on failure. -/
def modify_triggers (s : TriggerSet)
    (f : TriggerSet → Except Error (TriggerSet × TriggerEvent)) :
    TriggerSet × Except Error TriggerEvent :=
  match f s with
  | Except.ok (s2, ev) => (s2, Except.ok ev)
  | Except.error e => (s, Except.error e)

/-- `OccursExactlyAtTime for Action`: true exactly when the action filter
is a time schedule with no recurring period. -/
def Action.occurs_exactly_at_time (a : Action) : Bool :=
  match a.filter with
  | EventFilter.Time (ExecutionTime.Schedule ⟨_, none⟩) => true
  | _ => false

/-- `Register<Trigger>::execute`: reject a one-shot exact-time trigger
whose repeat policy is not exactly 1 with a math overflow error, then add
the trigger through the mutation gateway, emitting `Created`. -/
def registerExecute (new_trigger : Trigger) (_authority : AccountId)
    (s : TriggerSet) : TriggerSet × Except Error TriggerEvent :=
  if new_trigger.action.occurs_exactly_at_time = true ∧
      new_trigger.action.repeats ≠ Repeats.Exactly 1 then
    (s, Except.error (Error.Math MathError.Overflow))
  else
    modify_triggers s (fun triggers =>
      match TriggerSet.add triggers new_trigger with
      | Except.error e => Except.error e
      | Except.ok triggers2 =>
          Except.ok (triggers2, TriggerEvent.Created new_trigger.id))

/-- `Unregister<Trigger>::execute`: remove the trigger by id through the
mutation gateway, emitting `Deleted`. -/
def unregisterExecute (object_id : TriggerId) (_authority : AccountId)
    (s : TriggerSet) : TriggerSet × Except Error TriggerEvent :=
  modify_triggers s (fun triggers =>
    match TriggerSet.remove triggers object_id with
    | Except.error e => Except.error e
    | Except.ok triggers2 =>
        Except.ok (triggers2, TriggerEvent.Deleted object_id))

/-- `Mint<Trigger, u32>::execute`: look the action up, reject one-shot
exact-time triggers before any arithmetic, then increase the repeat count
with checked addition, emitting `Extended`. -/
def mintExecute (destination_id : TriggerId) (object : Nat)
    (_authority : AccountId) (s : TriggerSet) :
    TriggerSet × Except Error TriggerEvent :=
  modify_triggers s (fun triggers =>
    match TriggerSet.get triggers destination_id with
    | Except.error e => Except.error e
    | Except.ok action =>
      if action.occurs_exactly_at_time = true then
        Except.error (Error.Math MathError.Overflow)
      else
        match TriggerSet.mod_repeats triggers destination_id (fun n =>
            match u32_checked_add n object with
            | none => Except.error MathError.Overflow
            | some m => Except.ok m) with
        | Except.error e => Except.error e
        | Except.ok triggers2 =>
            Except.ok (triggers2, TriggerEvent.Extended destination_id))

/-- `Burn<Trigger, u32>::execute`: decrease the repeat count with checked
subtraction (no one-shot restriction), emitting `Shortened`. -/
def burnExecute (destination_id : TriggerId) (object : Nat)
    (_authority : AccountId) (s : TriggerSet) :
    TriggerSet × Except Error TriggerEvent :=
  modify_triggers s (fun triggers =>
    match TriggerSet.mod_repeats triggers destination_id (fun n =>
        match u32_checked_sub n object with
        | none => Except.error MathError.Overflow
        | some m => Except.ok m) with
    | Except.error e => Except.error e
    | Except.ok triggers2 =>
        Except.ok (triggers2, TriggerEvent.Shortened destination_id))

/-- The trigger-mutating instruction variants. -/
inductive Instr where
  | register (t : Trigger) : Instr
  | unregister (id : TriggerId) : Instr
  | mint (id : TriggerId) (amount : Nat) : Instr
  | burn (id : TriggerId) (amount : Nat) : Instr
deriving DecidableEq, Repr

/-- Dispatch of a trigger-mutating instruction on the registry. -/
def applyInstr (i : Instr) (authority : AccountId) (s : TriggerSet) :
    TriggerSet × Except Error TriggerEvent :=
  match i with
  | Instr.register t => registerExecute t authority s
  | Instr.unregister id => unregisterExecute id authority s
  | Instr.mint id n => mintExecute id n authority s
  | Instr.burn id n => burnExecute id n authority s

/-- Run a sequence of instructions, keeping only the resulting registry
(failed instructions leave the registry unchanged). -/
def applyInstrs (instrs : List Instr) (authority : AccountId)
    (s : TriggerSet) : TriggerSet :=
  match instrs with
  | [] => s
  | i :: rest => applyInstrs rest authority (applyInstr i authority s).1

/-- Whether an instruction is a `Burn`. -/
def Instr.isBurn : Instr → Bool
  | Instr.burn _ _ => true
  | _ => false

/-- Query-execution failure taxonomy for the trigger queries. -/
inductive QueryError where
  | Find (id : TriggerId) : QueryError
  | Evaluate (msg : String) : QueryError
  | MetadataKey (k : String) : QueryError
deriving DecidableEq, Repr

/-- `ValidQuery for FindTriggerById` (with the id expression already
evaluated): look the trigger up, failing not-found when absent. -/
def findTriggerById (id : TriggerId) (s : TriggerSet) :
    Except QueryError Trigger :=
  match TriggerSet.find s id with
  | none => Except.error (QueryError.Find id)
  | some a => Except.ok ⟨id, a⟩

/-- Outcome of a trigger execution: success, or failure with a reason. -/
inductive TriggerCompletedOutcome where
  | Success : TriggerCompletedOutcome
  | Failure (reason : String) : TriggerCompletedOutcome
deriving DecidableEq, Repr

/-- Discriminant of `TriggerCompletedOutcome` (the `strum` discriminants enum). -/
inductive TriggerCompletedOutcomeType where
  | Success : TriggerCompletedOutcomeType
  | Failure : TriggerCompletedOutcomeType
deriving DecidableEq, Repr

/-- Event notifying that a trigger was executed. -/
structure TriggerCompletedEvent where
  trigger_id : TriggerId
  outcome : TriggerCompletedOutcome
deriving DecidableEq, Repr

/-- Filter for `TriggerCompletedEvent`: optional id predicate and optional
outcome-type predicate, conjunctive. -/
structure TriggerCompletedEventFilter where
  trigger_id : Option TriggerId
  outcome_type : Option TriggerCompletedOutcomeType
deriving DecidableEq, Repr

/-- Externally observable notification event. -/
inductive NotificationEvent where
  | TriggerCompleted (e : TriggerCompletedEvent) : NotificationEvent
deriving DecidableEq, Repr

/-- Filter for `NotificationEvent`. -/
inductive NotificationEventFilter where
  | AcceptAll : NotificationEventFilter
  | TriggerCompleted (f : TriggerCompletedEventFilter) : NotificationEventFilter
deriving DecidableEq, Repr

/-- `Filter for TriggerCompletedEventFilter`: reject on configured-id
mismatch, reject on configured-outcome-discriminant disagreement,
otherwise accept. -/
def TriggerCompletedEventFilter.matches (f : TriggerCompletedEventFilter)
    (event : TriggerCompletedEvent) : Bool :=
  if (match f.trigger_id with
      | some trigger_id => decide (trigger_id ≠ event.trigger_id)
      | none => false) then false
  else if (match f.outcome_type, event.outcome with
      | some TriggerCompletedOutcomeType.Success,
          TriggerCompletedOutcome.Failure _ => true
      | some TriggerCompletedOutcomeType.Failure,
          TriggerCompletedOutcome.Success => true
      | _, _ => false) then false
  else true

/-- `Filter for NotificationEventFilter`: `AcceptAll` accepts everything,
`TriggerCompleted` delegates to the sub-filter. -/
def NotificationEventFilter.matches (f : NotificationEventFilter)
    (event : NotificationEvent) : Bool :=
  match f, event with
  | NotificationEventFilter.AcceptAll, _ => true
  | NotificationEventFilter.TriggerCompleted fil,
      NotificationEvent.TriggerCompleted ev =>
        TriggerCompletedEventFilter.matches fil ev

/-- Whether the outcome is the `Failure` variant (discriminant only). -/
def TriggerCompletedOutcome.isFailureB : TriggerCompletedOutcome → Bool
  | TriggerCompletedOutcome.Failure _ => true
  | TriggerCompletedOutcome.Success => false

/-- Whether an error is the duplicate-registration kind. -/
def Error.isDuplicate : Error → Bool
  | Error.Repetition _ => true
  | _ => false

/-- The one-shot invariant: every registered trigger whose action filter
is a non-recurring exact-time schedule has repeat policy exactly 1. -/
def oneShotInv (s : TriggerSet) : Prop :=
  ∀ id a, TriggerSet.find s id = some a →
    a.occurs_exactly_at_time = true → a.repeats = Repeats.Exactly 1

/-- Decidable equality of instruction results, for concrete evaluation. -/
instance {ε α : Type} [DecidableEq ε] [DecidableEq α] :
    DecidableEq (Except ε α) := fun x y =>
  match x, y with
  | Except.error e1, Except.error e2 =>
    if h : e1 = e2 then Decidable.isTrue (by rw [h])
    else Decidable.isFalse (fun hh => h (Except.error.inj hh))
  | Except.ok a1, Except.ok a2 =>
    if h : a1 = a2 then Decidable.isTrue (by rw [h])
    else Decidable.isFalse (fun hh => h (Except.ok.inj hh))
  | Except.error _, Except.ok _ =>
    Decidable.isFalse (fun hh => Except.noConfusion hh)
  | Except.ok _, Except.error _ =>
    Decidable.isFalse (fun hh => Except.noConfusion hh)

/-- A non-recurring exact-time schedule filter. -/
def oneShotFilter : EventFilter :=
  EventFilter.Time (ExecutionTime.Schedule ⟨0, none⟩)

/-- A concrete one-shot action with repeat policy exactly 1. -/
def oneShotAction1 : Action :=
  { filter := oneShotFilter
    executable := "payload"
    repeats := Repeats.Exactly 1
    technical_account := "alice"
    metadata := [] }

/-- A concrete data-event action with an exact repeat count. -/
def dataAction (n : Nat) : Action :=
  { filter := EventFilter.Data
    executable := "payload"
    repeats := Repeats.Exactly n
    technical_account := "alice"
    metadata := [("key", "value")] }

/-- A registry holding only the one-shot trigger T2. -/
def oneShotState : TriggerSet := [("T2", oneShotAction1)]

/-- A registry holding only the data trigger T1 with 3 repeats. -/
def dataState3 : TriggerSet := [("T1", dataAction 3)]

/-- Updating the repeat policy leaves the one-shot check unchanged. -/
theorem occurs_update_repeats (a : Action) (r : Repeats) :
    Action.occurs_exactly_at_time { a with repeats := r } =
      Action.occurs_exactly_at_time a := rfl

/-- Lookup after removing an id. -/
theorem find_removeId (s : TriggerSet) (id k : TriggerId) :
    TriggerSet.find (removeId s id) k =
      if k = id then none else TriggerSet.find s k := by
  induction s with
  | nil => simp [removeId, TriggerSet.find]
  | cons p t ih =>
    obtain ⟨key, a⟩ := p
    simp only [removeId, TriggerSet.find]
    by_cases h1 : key = id
    · simp only [if_pos h1, ih]
      by_cases h2 : k = id
      · simp [h2]
      · have hkk : ¬ key = k := fun h => h2 (by rw [← h, h1])
        simp [h2, hkk]
    · simp only [if_neg h1, TriggerSet.find]
      by_cases h2 : key = k
      · have hki : ¬ k = id := fun h => h1 (by rw [h2, h])
        simp [h2, hki]
      · simp [h2, ih]

/-- Lookup after overwriting the repeat policy of an id. -/
theorem find_setRepeats (s : TriggerSet) (id k : TriggerId) (m : Nat) :
    TriggerSet.find (setRepeats s id m) k =
      if k = id then
        (TriggerSet.find s k).map (fun a => { a with repeats := Repeats.Exactly m })
      else TriggerSet.find s k := by
  induction s with
  | nil => simp [setRepeats, TriggerSet.find]
  | cons p t ih =>
    obtain ⟨key, a⟩ := p
    simp only [setRepeats, TriggerSet.find]
    by_cases h1 : key = id
    · simp only [if_pos h1]
      by_cases h2 : key = k
      · have hki : k = id := by rw [← h2, h1]
        simp [TriggerSet.find, h2, hki]
      · simp only [TriggerSet.find, if_neg h2, ih]
    · simp only [if_neg h1, TriggerSet.find]
      by_cases h2 : key = k
      · have hki : ¬ k = id := fun h => h1 (by rw [h2, h])
        simp [h2, hki]
      · simp [h2, ih]

/-- Behaviour of `Burn` on a trigger registered with an exact repeat
count: checked subtraction, error on underflow. -/
theorem burnExecute_char (id : TriggerId) (amount : Nat) (auth : AccountId)
    (s : TriggerSet) (a : Action) (n : Nat)
    (hreg : TriggerSet.find s id = some a)
    (hrep : a.repeats = Repeats.Exactly n) :
    burnExecute id amount auth s =
      if amount ≤ n then
        (setRepeats s id (n - amount), Except.ok (TriggerEvent.Shortened id))
      else (s, Except.error (Error.Math MathError.Overflow)) := by
  simp only [burnExecute, modify_triggers, TriggerSet.mod_repeats,
    u32_checked_sub, hreg, hrep]
  by_cases h : amount ≤ n
  · simp [h]
  · simp [h]

/-- Behaviour of `Mint` on a non-one-shot trigger registered with an
exact repeat count: checked addition, error on `u32` overflow. -/
theorem mintExecute_char (id : TriggerId) (amount : Nat) (auth : AccountId)
    (s : TriggerSet) (a : Action) (n : Nat)
    (hreg : TriggerSet.find s id = some a)
    (hocc : a.occurs_exactly_at_time = false)
    (hrep : a.repeats = Repeats.Exactly n) :
    mintExecute id amount auth s =
      if n + amount ≤ UINT32_MAX then
        (setRepeats s id (n + amount), Except.ok (TriggerEvent.Extended id))
      else (s, Except.error (Error.Math MathError.Overflow)) := by
  simp only [mintExecute, modify_triggers, TriggerSet.get, TriggerSet.mod_repeats,
    u32_checked_add, hreg, hrep]
  by_cases h : n + amount ≤ UINT32_MAX
  · simp [h, hocc]
  · simp [h, hocc]

/-- `Register` preserves the one-shot invariant: the schedule precheck
rejects exactly the insertions that would break it. -/
theorem oneShotInv_register (t : Trigger) (auth : AccountId) (s : TriggerSet)
    (hinv : oneShotInv s) : oneShotInv (registerExecute t auth s).1 := by
  unfold registerExecute
  split
  · exact hinv
  next hcond =>
    simp only [modify_triggers, TriggerSet.add]
    cases hfind : TriggerSet.find s t.id with
    | some a =>
      simp only [hfind]
      exact hinv
    | none =>
      simp only [hfind]
      intro id a hf hone
      simp only [TriggerSet.find] at hf
      split at hf
      next heq =>
        cases hf
        by_cases hrep : t.action.repeats = Repeats.Exactly 1
        · exact hrep
        · exact absurd ⟨hone, hrep⟩ hcond
      next heq => exact hinv id a hf hone

/-- `Unregister` preserves the one-shot invariant: it only removes
entries. -/
theorem oneShotInv_unregister (id : TriggerId) (auth : AccountId)
    (s : TriggerSet) (hinv : oneShotInv s) :
    oneShotInv (unregisterExecute id auth s).1 := by
  unfold unregisterExecute
  simp only [modify_triggers, TriggerSet.remove]
  cases hfind : TriggerSet.find s id with
  | none =>
    simp only [hfind]
    exact hinv
  | some a =>
    simp only [hfind]
    intro k b hf hone
    rw [find_removeId] at hf
    split at hf
    · cases hf
    · exact hinv k b hf hone

/-- `Mint` preserves the one-shot invariant: one-shot triggers are
rejected before the count changes, and the count change keeps the filter
of a non-one-shot trigger. -/
theorem oneShotInv_mint (id : TriggerId) (amount : Nat) (auth : AccountId)
    (s : TriggerSet) (hinv : oneShotInv s) :
    oneShotInv (mintExecute id amount auth s).1 := by
  unfold mintExecute
  simp only [modify_triggers, TriggerSet.get, TriggerSet.mod_repeats]
  cases hfind : TriggerSet.find s id with
  | none =>
    simp only [hfind]
    exact hinv
  | some a =>
    simp only [hfind]
    by_cases hocc : a.occurs_exactly_at_time = true
    · simp only [hocc, if_pos rfl]
      exact hinv
    · simp only [hocc]
      cases hrep : a.repeats with
      | Indefinitely =>
        simp only [if_neg hocc]
        exact hinv
      | Exactly n =>
        simp only [if_neg hocc]
        cases hadd : u32_checked_add n amount with
        | none =>
          simp only [hadd]
          exact hinv
        | some m =>
          simp only [hadd]
          intro k b hf hone
          simp only [Bool.false_eq_true, if_false] at hf
          rw [find_setRepeats] at hf
          split at hf
          next hk =>
            rw [hk, hfind] at hf
            cases hf
            rw [occurs_update_repeats] at hone
            exact absurd hone hocc
          next hk => exact hinv k b hf hone

/-- `Mint` fails with the math overflow error on a registered one-shot
exact-time trigger, before the count arithmetic, for every amount. -/
theorem mint_oneShot_error (id : TriggerId) (amount : Nat)
    (auth : AccountId) (s : TriggerSet) (a : Action)
    (hreg : TriggerSet.find s id = some a)
    (hone : a.occurs_exactly_at_time = true) :
    mintExecute id amount auth s =
      (s, Except.error (Error.Math MathError.Overflow)) := by
  simp [mintExecute, modify_triggers, TriggerSet.get, hreg, hone]

/-- A successful `Register` pushes the trigger onto the registry. -/
theorem registerExecute_ok (t : Trigger) (auth : AccountId)
    (s s1 : TriggerSet) (ev : TriggerEvent)
    (hok : registerExecute t auth s = (s1, Except.ok ev)) :
    s1 = (t.id, t.action) :: s := by
  unfold registerExecute at hok
  split at hok
  · simp at hok
  · simp only [modify_triggers, TriggerSet.add] at hok
    cases hfind : TriggerSet.find s t.id with
    | some a =>
      rw [hfind] at hok
      simp at hok
    | none =>
      rw [hfind] at hok
      simp only [Prod.mk.injEq] at hok
      exact hok.1.symm

/-- C1 (amended): the one-shot invariant — every registered trigger with
a non-recurring exact-time schedule has repeat policy exactly 1 — holds
in every state reachable through Register, Unregister and Mint
instructions from a state satisfying it.  Burn is excluded: it has no
one-shot restriction and can lower such a trigger's count below 1. -/
theorem C1_oneShotInv_reachable (instrs : List Instr) (auth : AccountId)
    (s : TriggerSet) (hinv : oneShotInv s)
    (hnb : ∀ i ∈ instrs, i.isBurn = false) :
    oneShotInv (applyInstrs instrs auth s) := by
  induction instrs generalizing s with
  | nil => exact hinv
  | cons i rest ih =>
    have hstep : oneShotInv (applyInstr i auth s).1 := by
      cases i with
      | register t => exact oneShotInv_register t auth s hinv
      | unregister id => exact oneShotInv_unregister id auth s hinv
      | mint id n => exact oneShotInv_mint id n auth s hinv
      | burn id n =>
        have hb := hnb (Instr.burn id n) (List.mem_cons_self _ _)
        simp [Instr.isBurn] at hb
    simp only [applyInstrs]
    exact ih ((applyInstr i auth s).1) hstep
      (fun j hj => hnb j (List.mem_cons_of_mem _ hj))

/-- C1 counterexample: from a state satisfying the invariant, Burn(1) on
the registered one-shot trigger T2 succeeds and leaves it with repeat
count exactly 0, so the trigger-mutating instruction Burn does not
preserve the invariant. -/
theorem C1_counterexample :
    oneShotInv oneShotState ∧
      ¬ oneShotInv (applyInstr (Instr.burn "T2" 1) "alice" oneShotState).1 := by
  constructor
  · intro id a hf _
    simp only [oneShotState, TriggerSet.find] at hf
    split at hf
    · cases hf
      rfl
    · cases hf
  · intro h
    have h2 := h "T2" { oneShotAction1 with repeats := Repeats.Exactly 0 }
      (by decide) (by decide)
    exact absurd h2 (by decide)

/-- C1 witness: the reachability theorem applied to registering the data
trigger T1 from the empty registry. -/
theorem C1_witness :
    oneShotInv (applyInstrs [Instr.register ⟨"T1", dataAction 3⟩] "alice" []) :=
  C1_oneShotInv_reachable [Instr.register ⟨"T1", dataAction 3⟩] "alice" []
    (fun id a hf _ => by simp [TriggerSet.find] at hf)
    (by decide)

/-- C2: for a trigger whose action filter is a non-recurring exact-time
schedule, Register succeeds only if the repeat policy is exactly 1; any
other policy yields the math overflow error with the registry left
unchanged. -/
theorem C2_register_oneShot_requires_one (t : Trigger) (auth : AccountId)
    (s : TriggerSet) (hone : t.action.occurs_exactly_at_time = true) :
    (t.action.repeats ≠ Repeats.Exactly 1 →
      registerExecute t auth s =
        (s, Except.error (Error.Math MathError.Overflow))) ∧
    (∀ s2 ev, registerExecute t auth s = (s2, Except.ok ev) →
      t.action.repeats = Repeats.Exactly 1) := by
  constructor
  · intro hrep
    unfold registerExecute
    rw [if_pos ⟨hone, hrep⟩]
  · intro s2 ev hok
    by_cases hrep : t.action.repeats = Repeats.Exactly 1
    · exact hrep
    · exfalso
      unfold registerExecute at hok
      rw [if_pos ⟨hone, hrep⟩] at hok
      simp at hok

/-- C2 witness: registering a one-shot trigger with repeat policy
exactly 2 on the empty registry fails with the math overflow error. -/
theorem C2_witness :
    registerExecute ⟨"T2", { oneShotAction1 with repeats := Repeats.Exactly 2 }⟩
        "alice" [] = ([], Except.error (Error.Math MathError.Overflow)) :=
  (C2_register_oneShot_requires_one
    ⟨"T2", { oneShotAction1 with repeats := Repeats.Exactly 2 }⟩
    "alice" [] (by decide)).1 (by decide)

/-- C3: Mint on a registered one-shot exact-time trigger fails with the
math overflow error for every amount, including zero — the result does
not depend on the stored repeat count, since the failure is decided
before the checked arithmetic — and the registry (hence the repeat
count) is unchanged. -/
theorem C3_mint_oneShot_always_fails (id : TriggerId) (amount : Nat)
    (auth : AccountId) (s : TriggerSet) (a : Action)
    (hreg : TriggerSet.find s id = some a)
    (hone : a.occurs_exactly_at_time = true) :
    mintExecute id amount auth s =
      (s, Except.error (Error.Math MathError.Overflow)) :=
  mint_oneShot_error id amount auth s a hreg hone

/-- C3 witness: Mint of amount 0 on the registered one-shot trigger T2
fails with the math overflow error and leaves the registry unchanged. -/
theorem C3_witness :
    mintExecute "T2" 0 "alice" oneShotState =
      (oneShotState, Except.error (Error.Math MathError.Overflow)) :=
  C3_mint_oneShot_always_fails "T2" 0 "alice" oneShotState oneShotAction1
    (by decide) (by decide)

/-- C10: the trigger instructions Register, Unregister, Mint and Burn
ignore the acting authority: for any two authorities the same
instruction on the same registry produces the same result, state
transition and lifecycle event. -/
theorem C10_authority_irrelevant (i : Instr) (auth1 auth2 : AccountId)
    (s : TriggerSet) : applyInstr i auth1 s = applyInstr i auth2 s := by
  cases i <;> rfl

/-- C4: on a registered non-one-shot trigger with repeat count n,
Burn(a) followed by Mint(a), both succeeding, restores the repeat count
to exactly n; on a one-shot exact-time trigger the round trip never
completes: after a successful Burn the Mint leg always fails. -/
theorem C4_burn_mint_roundtrip :
    (∀ (id : TriggerId) (a : Action) (n amount : Nat) (auth : AccountId)
        (s s1 s2 : TriggerSet) (ev1 ev2 : TriggerEvent),
      TriggerSet.find s id = some a →
      a.occurs_exactly_at_time = false →
      a.repeats = Repeats.Exactly n →
      burnExecute id amount auth s = (s1, Except.ok ev1) →
      mintExecute id amount auth s1 = (s2, Except.ok ev2) →
      ∃ a2, TriggerSet.find s2 id = some a2 ∧
        a2.repeats = Repeats.Exactly n) ∧
    (∀ (id : TriggerId) (a : Action) (amount : Nat) (auth : AccountId)
        (s s1 : TriggerSet) (ev1 : TriggerEvent),
      TriggerSet.find s id = some a →
      a.occurs_exactly_at_time = true →
      burnExecute id amount auth s = (s1, Except.ok ev1) →
      (mintExecute id amount auth s1).2 =
        Except.error (Error.Math MathError.Overflow)) := by
  constructor
  · intro id a n amount auth s s1 s2 ev1 ev2 hreg hocc hrep hburn hmint
    rw [burnExecute_char id amount auth s a n hreg hrep] at hburn
    by_cases hle : amount ≤ n
    · rw [if_pos hle] at hburn
      injection hburn with hs1 hev1
      subst hs1
      have hfind1 : TriggerSet.find (setRepeats s id (n - amount)) id
          = some { a with repeats := Repeats.Exactly (n - amount) } := by
        rw [find_setRepeats, if_pos rfl, hreg]
        rfl
      have hocc1 : Action.occurs_exactly_at_time
          { a with repeats := Repeats.Exactly (n - amount) } = false := by
        rw [occurs_update_repeats]
        exact hocc
      rw [mintExecute_char id amount auth _ _ (n - amount) hfind1 hocc1 rfl]
        at hmint
      by_cases hle2 : n - amount + amount ≤ UINT32_MAX
      · rw [if_pos hle2] at hmint
        injection hmint with hs2 hev2
        subst hs2
        refine ⟨{ a with repeats := Repeats.Exactly (n - amount + amount) },
          ?_, ?_⟩
        · rw [find_setRepeats, if_pos rfl, hfind1]
          rfl
        · rw [Nat.sub_add_cancel hle]
      · rw [if_neg hle2] at hmint
        simp at hmint
    · rw [if_neg hle] at hburn
      simp at hburn
  · intro id a amount auth s s1 ev1 hreg hone hburn
    cases hrep : a.repeats with
    | Indefinitely =>
      simp [burnExecute, modify_triggers, TriggerSet.mod_repeats, hreg, hrep]
        at hburn
    | Exactly n =>
      rw [burnExecute_char id amount auth s a n hreg hrep] at hburn
      by_cases hle : amount ≤ n
      · rw [if_pos hle] at hburn
        injection hburn with hs1 hev1
        subst hs1
        have hfind1 : TriggerSet.find (setRepeats s id (n - amount)) id
            = some { a with repeats := Repeats.Exactly (n - amount) } := by
          rw [find_setRepeats, if_pos rfl, hreg]
          rfl
        have hone1 : Action.occurs_exactly_at_time
            { a with repeats := Repeats.Exactly (n - amount) } = true := by
          rw [occurs_update_repeats]
          exact hone
        rw [mint_oneShot_error id amount auth _ _ hfind1 hone1]
      · rw [if_neg hle] at hburn
        simp at hburn

/-- C4 witness: from T1 registered with 3 repeats, Burn(2) then Mint(2)
both succeed and the repeat count is exactly 3 again. -/
theorem C4_witness :
    ∃ a2,
      TriggerSet.find
        (mintExecute "T1" 2 "alice" (burnExecute "T1" 2 "alice" dataState3).1).1
        "T1" = some a2 ∧ a2.repeats = Repeats.Exactly 3 :=
  C4_burn_mint_roundtrip.1 "T1" (dataAction 3) 3 2 "alice" dataState3
    (burnExecute "T1" 2 "alice" dataState3).1
    (mintExecute "T1" 2 "alice" (burnExecute "T1" 2 "alice" dataState3).1).1
    (TriggerEvent.Shortened "T1") (TriggerEvent.Extended "T1")
    (by decide) (by decide) (by decide) (by decide) (by decide)

/-- C5: Mint increases and Burn decreases the repeat count with checked
u32 arithmetic: overflow and underflow are hard errors that leave the
registry (hence the count) unchanged, never a saturating clamp and never
a negative count; otherwise the count becomes n + amount with the
Extended event, or n - amount with the Shortened event. -/
theorem C5_checked_arithmetic (id : TriggerId) (amount n : Nat)
    (auth : AccountId) (s : TriggerSet) (a : Action)
    (hreg : TriggerSet.find s id = some a)
    (hrep : a.repeats = Repeats.Exactly n) :
    ((a.occurs_exactly_at_time = false → n + amount ≤ UINT32_MAX →
        mintExecute id amount auth s =
          (setRepeats s id (n + amount),
            Except.ok (TriggerEvent.Extended id))) ∧
      (a.occurs_exactly_at_time = false → n + amount > UINT32_MAX →
        mintExecute id amount auth s =
          (s, Except.error (Error.Math MathError.Overflow)))) ∧
    ((amount ≤ n →
        burnExecute id amount auth s =
          (setRepeats s id (n - amount),
            Except.ok (TriggerEvent.Shortened id))) ∧
      (amount > n →
        burnExecute id amount auth s =
          (s, Except.error (Error.Math MathError.Overflow)))) := by
  refine ⟨⟨?_, ?_⟩, ?_, ?_⟩
  · intro hocc hle
    rw [mintExecute_char id amount auth s a n hreg hocc hrep, if_pos hle]
  · intro hocc hgt
    rw [mintExecute_char id amount auth s a n hreg hocc hrep,
      if_neg (by omega)]
  · intro hle
    rw [burnExecute_char id amount auth s a n hreg hrep, if_pos hle]
  · intro hgt
    rw [burnExecute_char id amount auth s a n hreg hrep, if_neg (by omega)]

/-- C5 witness: the spec scenario on trigger T1 registered with 3
repeats: Burn(1) gives 2 with Shortened, Mint(5) gives 7 with Extended,
Burn(10) fails with the math overflow error leaving the registry (count
7) unchanged. -/
theorem C5_witness :
    burnExecute "T1" 1 "alice" dataState3 =
      (setRepeats dataState3 "T1" 2,
        Except.ok (TriggerEvent.Shortened "T1")) ∧
    mintExecute "T1" 5 "alice" (setRepeats dataState3 "T1" 2) =
      (setRepeats (setRepeats dataState3 "T1" 2) "T1" 7,
        Except.ok (TriggerEvent.Extended "T1")) ∧
    burnExecute "T1" 10 "alice"
        (setRepeats (setRepeats dataState3 "T1" 2) "T1" 7) =
      (setRepeats (setRepeats dataState3 "T1" 2) "T1" 7,
        Except.error (Error.Math MathError.Overflow)) := by
  refine ⟨?_, ?_, ?_⟩
  · exact (C5_checked_arithmetic "T1" 1 3 "alice" dataState3 (dataAction 3)
      (by decide) (by decide)).2.1 (by decide)
  · exact (C5_checked_arithmetic "T1" 5 2 "alice"
      (setRepeats dataState3 "T1" 2)
      { dataAction 3 with repeats := Repeats.Exactly 2 }
      (by decide) (by decide)).1.1 (by decide) (by decide)
  · exact (C5_checked_arithmetic "T1" 10 7 "alice"
      (setRepeats (setRepeats dataState3 "T1" 2) "T1" 7)
      { dataAction 3 with repeats := Repeats.Exactly 7 }
      (by decide) (by decide)).2.2 (by decide)

/-- C6 (amended): Register on an id already present in the registry
always fails and mutates nothing — the existing trigger's action, repeat
count and metadata are untouched; the error is the duplicate error
whenever the new trigger passes the one-shot schedule precheck (a
one-shot trigger with repeat policy other than exactly 1 is rejected
first with the math overflow error). -/
theorem C6_register_duplicate_fails (t : Trigger) (auth : AccountId)
    (s : TriggerSet) (a0 : Action)
    (hdup : TriggerSet.find s t.id = some a0) :
    (registerExecute t auth s).1 = s ∧
    (∃ e, (registerExecute t auth s).2 = Except.error e) ∧
    ((t.action.occurs_exactly_at_time = true →
        t.action.repeats = Repeats.Exactly 1) →
      registerExecute t auth s =
        (s, Except.error (Error.Repetition t.id))) := by
  unfold registerExecute
  by_cases hcond : t.action.occurs_exactly_at_time = true ∧
      t.action.repeats ≠ Repeats.Exactly 1
  · rw [if_pos hcond]
    refine ⟨rfl, ⟨_, rfl⟩, ?_⟩
    intro hgood
    exact absurd (hgood hcond.1) hcond.2
  · rw [if_neg hcond]
    simp [modify_triggers, TriggerSet.add, hdup]

/-- C6 counterexample: registering a one-shot trigger with repeat policy
exactly 2 under the already-registered id T1 fails with the math
overflow error, which is not the duplicate error, refuting the
universally stated error kind. -/
theorem C6_counterexample :
    TriggerSet.find dataState3 "T1" = some (dataAction 3) ∧
    registerExecute
        ⟨"T1", { oneShotAction1 with repeats := Repeats.Exactly 2 }⟩
        "alice" dataState3 =
      (dataState3, Except.error (Error.Math MathError.Overflow)) ∧
    Error.isDuplicate (Error.Math MathError.Overflow) = false := by
  refine ⟨by decide, by decide, rfl⟩

/-- C6 witness: re-registering the data trigger T1 on a registry already
holding it fails with the duplicate error, registry unchanged. -/
theorem C6_witness :
    registerExecute ⟨"T1", dataAction 3⟩ "alice" dataState3 =
      (dataState3, Except.error (Error.Repetition "T1")) :=
  (C6_register_duplicate_fails ⟨"T1", dataAction 3⟩ "alice" dataState3
    (dataAction 3) (by decide)).2.2 (fun h => absurd h (by decide))

/-- C7: TriggerCompletedEventFilter matching is the conjunction of its
two optional predicates: a configured id with no outcome type matches
exactly the events with that id; no id with outcome type Failure matches
exactly the Failure events; both none matches everything; and the
comparison uses only the outcome discriminant, never the Failure reason
string. -/
theorem C7_filter_conjunctive_semantics :
    (∀ (X : TriggerId) (ev : TriggerCompletedEvent),
        TriggerCompletedEventFilter.matches ⟨some X, none⟩ ev
          = decide (ev.trigger_id = X)) ∧
    (∀ ev : TriggerCompletedEvent,
        TriggerCompletedEventFilter.matches
            ⟨none, some TriggerCompletedOutcomeType.Failure⟩ ev
          = ev.outcome.isFailureB) ∧
    (∀ ev : TriggerCompletedEvent,
        TriggerCompletedEventFilter.matches ⟨none, none⟩ ev = true) ∧
    (∀ (f : TriggerCompletedEventFilter) (id : TriggerId) (r1 r2 : String),
        TriggerCompletedEventFilter.matches f
            ⟨id, TriggerCompletedOutcome.Failure r1⟩
          = TriggerCompletedEventFilter.matches f
            ⟨id, TriggerCompletedOutcome.Failure r2⟩) := by
  refine ⟨?_, ?_, ?_, ?_⟩
  · intro X ev
    obtain ⟨tid, outc⟩ := ev
    by_cases h : X = tid
    · subst h
      cases outc <;> simp [TriggerCompletedEventFilter.matches]
    · have hsymm : ¬ tid = X := fun hh => h hh.symm
      cases outc <;> simp [TriggerCompletedEventFilter.matches, h, hsymm]
  · intro ev
    obtain ⟨tid, outc⟩ := ev
    cases outc <;>
      simp [TriggerCompletedEventFilter.matches,
        TriggerCompletedOutcome.isFailureB]
  · intro ev
    obtain ⟨tid, outc⟩ := ev
    cases outc <;> simp [TriggerCompletedEventFilter.matches]
  · intro f id r1 r2
    obtain ⟨ftid, fot⟩ := f
    cases fot with
    | none => rfl
    | some ot => cases ot <;> rfl

/-- C8: NotificationEventFilter.AcceptAll matches every constructed
notification event, both outcome variants and any trigger id. -/
theorem C8_acceptAll_matches_everything (event : NotificationEvent) :
    NotificationEventFilter.matches NotificationEventFilter.AcceptAll event
      = true := by
  cases event
  rfl

/-- C9: Unregister on an id absent from the registry fails with the
not-found error and changes nothing; after a successful Register,
Unregister of that id succeeds (under any authority) and a subsequent
FindTriggerById fails with the not-found error. -/
theorem C9_unregister_and_lookup :
    (∀ (id : TriggerId) (auth : AccountId) (s : TriggerSet),
      TriggerSet.find s id = none →
      unregisterExecute id auth s = (s, Except.error (Error.Find id))) ∧
    (∀ (t : Trigger) (auth1 auth2 : AccountId) (s s1 : TriggerSet)
        (ev : TriggerEvent),
      registerExecute t auth1 s = (s1, Except.ok ev) →
      ∃ s2, unregisterExecute t.id auth2 s1 =
          (s2, Except.ok (TriggerEvent.Deleted t.id)) ∧
        findTriggerById t.id s2 = Except.error (QueryError.Find t.id)) := by
  constructor
  · intro id auth s hnone
    simp [unregisterExecute, modify_triggers, TriggerSet.remove, hnone]
  · intro t auth1 auth2 s s1 ev hok
    have hs1 := registerExecute_ok t auth1 s s1 ev hok
    subst hs1
    have hfind1 : TriggerSet.find ((t.id, t.action) :: s) t.id
        = some t.action := by
      simp [TriggerSet.find]
    have hgone : TriggerSet.find
        (removeId ((t.id, t.action) :: s) t.id) t.id = none := by
      rw [find_removeId, if_pos rfl]
    refine ⟨removeId ((t.id, t.action) :: s) t.id, ?_, ?_⟩
    · simp [unregisterExecute, modify_triggers, TriggerSet.remove, hfind1]
    · simp [findTriggerById, hgone]

/-- C9 witness: Unregister on the empty registry fails not-found; and
the register/unregister/find sequence for T1 behaves as claimed. -/
theorem C9_witness :
    (unregisterExecute "T9" "alice" [] =
      ([], Except.error (Error.Find "T9"))) ∧
    ∃ s2, unregisterExecute "T1" "bob" [("T1", dataAction 3)] =
        (s2, Except.ok (TriggerEvent.Deleted "T1")) ∧
      findTriggerById "T1" s2 = Except.error (QueryError.Find "T1") :=
  ⟨C9_unregister_and_lookup.1 "T9" "alice" [] (by decide),
    C9_unregister_and_lookup.2 ⟨"T1", dataAction 3⟩ "alice" "bob" []
      [("T1", dataAction 3)] (TriggerEvent.Created "T1") (by decide)⟩

end Iroha
